import Mathlib

/-!
Verification of the recommendation-engine backend: a shallow embedding of
its tag normalizer, scoring engine, candidate selector, ranking engine
(oracle path and deterministic fallback), related-tag lookup and
precomputation tracker, together with theorems settling the specification
claims about them.

Storage tables are modelled as Lean lists, SQL queries as list
transformations, and the external ranking oracle plus JSON parsing as
explicit outcome parameters.  Numeric columns (prices, scores) are
modelled as rationals.  JavaScript strings are modelled as Lean strings,
with the character-level operations implemented on `List Char` so that
every definition evaluates by kernel reduction.
-/

/-! ## String utilities (character-list based models of the JS string ops) -/

/-- The character `{` (written via its code point). -/
def openBrace : Char := Char.ofNat 123

/-- The character `}` (written via its code point). -/
def closeBrace : Char := Char.ofNat 125

/-- Model of JavaScript `toLowerCase()` on the ASCII range. -/
def toLowerStr (s : String) : String := String.mk (s.data.map Char.toLower)

/-- Model of JavaScript `trim()`: strip leading and trailing whitespace. -/
def trimStr (s : String) : String :=
  String.mk (((s.data.dropWhile Char.isWhitespace).reverse.dropWhile Char.isWhitespace).reverse)

/-- Split a character list at every separator character, keeping empty pieces
(the tokens of JS `split(/[\s-]+/)` are exactly the nonempty pieces). -/
def splitCharsBy (p : Char → Bool) (cs : List Char) : List (List Char) :=
  cs.foldr
    (fun c acc =>
      if p c then [] :: acc
      else
        match acc with
        | t :: rest => (c :: t) :: rest
        | [] => [[c]])
    [[]]

/-- Split a string at every character satisfying `p`. -/
def splitStr (p : Char → Bool) (s : String) : List String :=
  (splitCharsBy p s.data).map String.mk

/-- Whether list `cs` starts with the list `pat`. -/
def listStartsWith : List Char → List Char → Bool
  | [], _ => true
  | _ :: _, [] => false
  | p :: ps, c :: cs => p == c && listStartsWith ps cs

/-- Model of `startsWith` on strings. -/
def startsWithStr (s pat : String) : Bool := listStartsWith pat.data s.data

/-- Model of `endsWith` on strings. -/
def endsWithStr (s pat : String) : Bool := listStartsWith pat.data.reverse s.data.reverse

/-- Drop the first `n` characters of a string. -/
def dropStr (s : String) (n : Nat) : String := String.mk (s.data.drop n)

/-- Drop the last `n` characters of a string. -/
def dropRightStr (s : String) (n : Nat) : String :=
  String.mk ((s.data.reverse.drop n).reverse)

/-- Model of JS `replace(/\s+/g, '-')`: every maximal run of whitespace becomes
one dash. -/
def whitespaceRunsToDash (s : String) : String :=
  String.mk
    ((s.data.foldl
        (fun (acc : List Char × Bool) c =>
          if c.isWhitespace then
            if acc.2 then acc else (acc.1 ++ ['-'], true)
          else (acc.1 ++ [c], false))
        ([], false)).1)

/-! ## Data model (src/src/types/index.ts and the `products` table) -/

/-- A product variant (`ProductVariant` in the source). -/
structure ProductVariant where
  id : Int
  title : String
  price : Rat
  inventory_quantity : Int
deriving DecidableEq, Repr

/-- A row of the `products` table (columns used by the runtime query path). -/
structure Product where
  id : Int
  shop_id : String
  title : String
  category : String
  price : Rat
  vendor : String
  variants : List ProductVariant
  tags : String
  status : String
  stock : Int
  merchant_score : Rat
  purchase_score : Rat
deriving DecidableEq, Repr

/-- A scored recommendation entry (`ScoredProduct` in the source). -/
structure ScoredProduct where
  id : Int
  title : String
  variant_id : Int
  variant_title : String
  category : String
  price : Rat
  vendor : String
  score : Rat
  embedding_similarity : Rat
  merchant_score : Rat
  purchase_score : Rat
  price_similarity : Rat
deriving DecidableEq, Repr

/-- A catalog product as consumed by the tag normalizer (`CatalogProduct`).
The empty string models a missing/empty (JS-falsy) `category` or `vendor`. -/
structure CatalogProduct where
  id : Int
  title : String
  category : String
  price : Rat
  vendor : String
  tags : Option (List String)
deriving DecidableEq, Repr

/-! ## Tag Normalizer (normalizeTags in src/src/index.ts, tag-service) -/

/-- Model of `Set.add` followed by `Array.from`: append a tag unless present,
preserving insertion order. -/
def addTag (acc : List String) (t : String) : List String :=
  if t ∈ acc then acc else acc ++ [t]

/-- The fixed stop-word list of the tag normalizer. -/
def isStopWord (word : String) : Bool :=
  ["the", "and", "for", "with", "from", "this", "that", "pack"].contains word

/-- The price-bucket ladder of the tag normalizer. -/
def getPriceRangeTag (price : Rat) : String :=
  if price < 30 then "price:budget"
  else if price < 75 then "price:mid"
  else if price < 150 then "price:premium"
  else "price:luxury"

/-- The separator class of the title tokenizer `split(/[\s-]+/)`. -/
def titleSep (c : Char) : Bool := c.isWhitespace || c == '-'

/-- `normalizeTags` from the source: canonical tag set for a catalog product. -/
def normalizeTags (product : CatalogProduct) : List String :=
  let tags : List String := []
  let tags :=
    if product.category ≠ "" then addTag tags (trimStr (toLowerStr product.category)) else tags
  let titleWords := splitStr titleSep (toLowerStr product.title)
  let tags :=
    titleWords.foldl
      (fun acc word => if word.length > 3 && !(isStopWord word) then addTag acc word else acc)
      tags
  let tags :=
    if product.vendor ≠ "" then
      addTag tags ("vendor:" ++ whitespaceRunsToDash (toLowerStr product.vendor))
    else tags
  let tags := addTag tags (getPriceRangeTag product.price)
  match product.tags with
  | some existing => existing.foldl (fun acc t => addTag acc (trimStr (toLowerStr t))) tags
  | none => tags

/-! ## Scoring Engine (computeProductScores in precompute-service.ts) -/

/-- The stock step function of the merchant-score `CASE` expression. -/
def merchantScoreOfStock (stock : Int) : Rat :=
  if stock > 50 then 1
  else if stock > 20 then 7/10
  else if stock > 0 then 4/10
  else 1/10

/-- Model of the two score-update statements of `computeProductScores`:
every row of the shop gets the stock-based merchant score and a synthetic
purchase score `RANDOM() * 0.5 + 0.5`, where `rand` models the per-row
output of `RANDOM()`. -/
def computeProductScores (table : List Product) (shopId : String) (rand : Int → Rat) :
    List Product :=
  table.map fun p =>
    if p.shop_id == shopId then
      { p with
        merchant_score := merchantScoreOfStock p.stock,
        purchase_score := rand p.id * (1/2) + 1/2 }
    else p

/-! ## Candidate Selector (getCandidateProductsByTags in recommendation-service) -/

/-- The composite ordering score `merchant_score * 0.6 + purchase_score * 0.4`
of the candidate query's `ORDER BY` clause. -/
def compositeScore (p : Product) : Rat :=
  p.merchant_score * (6/10) + p.purchase_score * (4/10)

/-- The `WHERE` clause of the candidate query: same shop, id not excluded,
active, in stock, primary tag among the related tags. -/
def candidateMatches (shopId : String) (tags : List String) (excludeIds : List Int)
    (p : Product) : Bool :=
  p.shop_id == shopId && !(excludeIds.contains p.id) && p.status == "active" &&
    decide (0 < p.stock) && tags.contains p.tags

/-- The descending composite-score order of the candidate query. -/
def byScoreDesc (a b : Product) : Prop := compositeScore b ≤ compositeScore a

instance : DecidableRel byScoreDesc := fun a b =>
  inferInstanceAs (Decidable (compositeScore b ≤ compositeScore a))

instance : IsTotal Product byScoreDesc :=
  ⟨fun a b => (le_total (compositeScore b) (compositeScore a)).symm.symm⟩

instance : IsTrans Product byScoreDesc :=
  ⟨fun _ _ _ hab hbc => le_trans hbc hab⟩

/-- Model of the candidate-selection query `getCandidateProductsByTags`:
filter by the `WHERE` clause, order by composite score descending, and apply
the `LIMIT`. -/
def getCandidateProductsByTags (table : List Product) (shopId : String)
    (tags : List String) (excludeIds : List Int) (limit : Nat) : List Product :=
  ((table.filter (candidateMatches shopId tags excludeIds)).insertionSort byScoreDesc).take limit

/-! ## Source-product lookup (getProductsByIds and its call site) -/

/-- Model of `getProductsByIds`: `SELECT ... FROM products WHERE id = ANY($1)`.
The query has no `shop_id` condition. -/
def getProductsByIds (table : List Product) (productIds : List Int) : List Product :=
  table.filter fun p => productIds.contains p.id

/-- The source-product lookup exactly as `getRecommendations` performs it:
the requested `shopId` is accepted but never passed to the query. -/
def getRecommendationsSourceLookup (table : List Product) (shopId : String)
    (productIds : List Int) : List Product :=
  getProductsByIds table productIds

/-! ## Related-tag lookup (getRelatedTags in tag-service) -/

/-- The per-tag `tag_graph` lookups of `getRelatedTags`, accumulating the
children in a `Set` (insertion-ordered, deduplicated).  `lookup` models the
`SELECT children FROM tag_graph WHERE tag_name = $1` query: `none` for no row,
`some children` for a row, `Except.error` for a storage error. -/
def collectRelatedTags (lookup : String → Except String (Option (List String))) :
    List String → List String → Except String (List String)
  | [], acc => Except.ok acc
  | t :: ts, acc =>
    match lookup t with
    | Except.error e => Except.error e
    | Except.ok none => collectRelatedTags lookup ts acc
    | Except.ok (some children) => collectRelatedTags lookup ts (children.foldl addTag acc)

/-- Model of `getRelatedTags`: union the children of the given tags, truncate
to `maxTags`; a storage error anywhere in the loop is caught and turned into
the empty list (the function's `catch` block). -/
def getRelatedTags (lookup : String → Except String (Option (List String)))
    (tags : List String) (recommendationType : String) (maxTags : Nat) : List String :=
  match collectRelatedTags lookup tags [] with
  | Except.ok related => related.take maxTags
  | Except.error _ => []

/-! ## Ranking Engine (findNearestProductsWithLLM in recommendation-service) -/

/-- The direct Grid AI chat-completions endpoint. -/
def GRID_AI_URL : String := "https://grid.ai.juspay.net/v1/chat/completions"

/-- The Gemini chat-completions endpoint. -/
def GEMINI_URL : String := "https://generativelanguage.googleapis.com/v1beta/chat/completions"

/-- The resolved oracle backend configuration. -/
structure APIConfig where
  url : String
  apiKey : String
  useNeurolink : Bool
deriving DecidableEq, Repr

/-- The environment variables read by the configuration resolver.  `none`
models an unset variable. -/
structure Env where
  USE_NEUROLINK : Option String
  RECOMMENDATIONS_API_KEY : Option String
  GRID_AI_API_KEY : Option String
deriving DecidableEq, Repr

/-- `shouldUseNeurolink`: the `USE_NEUROLINK` variable lowercases to "true". -/
def shouldUseNeurolink (env : Env) : Bool :=
  match env.USE_NEUROLINK with
  | some s => toLowerStr s == "true"
  | none => false

/-- The Grid-AI branch of the configuration resolver: use `GRID_AI_API_KEY`
or throw when it is unset/empty. -/
def gridKeyBranch (env : Env) : Except String APIConfig :=
  let gridKey := env.GRID_AI_API_KEY.getD ""
  if gridKey == "" then
    Except.error "No API key found: set USE_NEUROLINK=true, RECOMMENDATIONS_API_KEY, or GRID_AI_API_KEY"
  else Except.ok ⟨GRID_AI_URL, gridKey, false⟩

/-- `getRecommendationsAPIConfig`: Neurolink flag first, then the
recommendations-specific key (must be truthy and trim to a truthy string),
then the general Grid AI key; error when none resolves. -/
def getRecommendationsAPIConfig (env : Env) : Except String APIConfig :=
  if shouldUseNeurolink env then Except.ok ⟨"", "", true⟩
  else
    match env.RECOMMENDATIONS_API_KEY with
    | some k => if k != "" && trimStr k != "" then Except.ok ⟨GEMINI_URL, k, false⟩ else gridKeyBranch env
    | none => gridKeyBranch env

/-- Outcome of the `fetch` call of the API-based oracle backend: a thrown
network error, or a response with its `ok` flag, status and the value of
`data.choices?.[0]?.message?.content` (`none` when absent). -/
inductive FetchOutcome where
  | thrown (msg : String)
  | response (ok : Bool) (status : Nat) (content : Option String)
deriving DecidableEq, Repr

/-- The external-world inputs of one ranking-engine invocation: the fetch
outcome, the Neurolink SDK outcome, and the behaviour of `JSON.parse` on the
extracted block (`none` models a parse exception or missing id arrays). -/
structure OracleWorld where
  fetchOutcome : FetchOutcome
  neurolinkOutcome : Except String String
  jsonParse : String → Option (List Int × List Int)

/-- JS `a || b` on strings: `b` when `a` is empty (falsy). -/
def jsOrStr (a b : String) : String := if a == "" then b else a

/-- JS `a || b` on numbers: `b` when `a` is `0` (falsy). -/
def jsOrRat (a b : Rat) : Rat := if a = 0 then b else a

/-- The oracle invocation: the Neurolink branch returns the SDK outcome; the
API branch throws on a thrown fetch or a non-2xx response (`!response.ok`)
and otherwise yields `content || '{}'`. -/
def invokeLLMBackend (cfg : APIConfig) (w : OracleWorld) : Except String String :=
  if cfg.useNeurolink then w.neurolinkOutcome
  else
    match w.fetchOutcome with
    | FetchOutcome.thrown msg => Except.error msg
    | FetchOutcome.response ok status content =>
      if ok then Except.ok (jsOrStr (content.getD "") "\x7b\x7d")
      else Except.error ("API error: " ++ toString status)

/-- The first `replace` of the response cleanup: `^`+three backticks+`(?:json)?\s*\n?`
(strip an opening markdown fence and the whitespace after it). -/
def stripLeadingFence (s : String) : String :=
  if startsWithStr s "```" then
    let r := dropStr s 3
    let r := if startsWithStr r "json" then dropStr r 4 else r
    String.mk (r.data.dropWhile Char.isWhitespace)
  else s

/-- The second `replace`: `\n?`+three backticks+`\s*$` (strip a closing
markdown fence, an optional newline before it and trailing whitespace). -/
def stripTrailingFence (s : String) : String :=
  let t := String.mk ((s.data.reverse.dropWhile Char.isWhitespace).reverse)
  if endsWithStr t "```" then
    let u := dropRightStr t 3
    if endsWithStr u "\n" then dropRightStr u 1 else u
  else s

/-- The regex `\{[\s\S]*\}` (greedy): the block from the first `{` to the
last `}`, or `none` when no such block exists. -/
def extractJsonBlock (s : String) : Option String :=
  match s.data.dropWhile (fun c => !(c == openBrace)) with
  | [] => none
  | tail =>
    match tail.reverse.dropWhile (fun c => !(c == closeBrace)) with
    | [] => none
    | kept => some (String.mk kept.reverse)

/-- The response-parsing chain: strip fences, `trim`, extract the first
balanced-bracket block, `JSON.parse` it into the two id arrays. -/
def parseLLMText (w : OracleWorld) (llmResponse : String) :
    Except String (List Int × List Int) :=
  let jsonText := trimStr (stripTrailingFence (stripLeadingFence llmResponse))
  match extractJsonBlock jsonText with
  | none => Except.error "Failed to parse LLM response - no JSON found"
  | some block =>
    match w.jsonParse block with
    | none => Except.error "Unexpected token in JSON"
    | some ids => Except.ok ids

/-- One step of the success path's id loop: find the candidate with the
returned id (numeric equality, first match) and append one scored entry per
variant, in stored variant order; an unmatched id is silently skipped. -/
def oracleMatchStep (candidates : List Product) (score esim psim : Rat)
    (acc : List ScoredProduct) (pid : Int) : List ScoredProduct :=
  match candidates.find? (fun c => c.id == pid) with
  | some candidate =>
    acc ++ candidate.variants.map (fun variant =>
      { id := candidate.id, title := candidate.title, variant_id := variant.id,
        variant_title := variant.title, category := candidate.category,
        price := variant.price, vendor := candidate.vendor,
        score := score, embedding_similarity := esim,
        merchant_score := candidate.merchant_score,
        purchase_score := candidate.purchase_score,
        price_similarity := psim })
  | none => acc

/-- The oracle-selected ids expanded into per-variant scored entries, with
the fixed display scores of the success path. -/
def expandOracleMatch (candidates : List Product) (ids : List Int)
    (score esim psim : Rat) : List ScoredProduct :=
  ids.foldl (oracleMatchStep candidates score esim psim) []

/-- The scored entry the fallback path builds for one candidate variant. -/
def mkFallbackScored (candidate : Product) (variant : ProductVariant) : ScoredProduct :=
  { id := candidate.id, title := candidate.title, variant_id := variant.id,
    variant_title := variant.title, category := candidate.category,
    price := variant.price, vendor := candidate.vendor,
    score := jsOrRat candidate.merchant_score (1/2),
    embedding_similarity := 7/10,
    merchant_score := jsOrRat candidate.merchant_score (1/2),
    purchase_score := jsOrRat candidate.purchase_score (1/2),
    price_similarity := 6/10 }

/-- `avgPrice`: the arithmetic mean of the source products' prices. -/
def meanSourcePrice (sourceProducts : List Product) : Rat :=
  (sourceProducts.map (·.price)).sum / sourceProducts.length

/-- The classification step of the fallback's inner variant loop: the scored
entry goes to the upsell accumulator when the candidate shares a category
with a source product and the variant price is at least the mean source
price, otherwise to the crosssell accumulator. -/
def fallbackVariantStep (sourceProducts : List Product) (candidate : Product)
    (acc2 : List ScoredProduct × List ScoredProduct) (variant : ProductVariant) :
    List ScoredProduct × List ScoredProduct :=
  let scored := mkFallbackScored candidate variant
  let isSameCategory := sourceProducts.any (fun p => p.category == candidate.category)
  let isHigherPrice := decide (meanSourcePrice sourceProducts ≤ variant.price)
  if isSameCategory && isHigherPrice then (acc2.1 ++ [scored], acc2.2)
  else (acc2.1, acc2.2 ++ [scored])

/-- The fallback's outer loop body: expand and classify every variant of one
candidate. -/
def fallbackCandidateStep (sourceProducts : List Product)
    (acc : List ScoredProduct × List ScoredProduct) (candidate : Product) :
    List ScoredProduct × List ScoredProduct :=
  candidate.variants.foldl (fallbackVariantStep sourceProducts candidate) acc

/-- The deterministic fallback of the ranking engine: first 20 candidates in
pool order, every variant expanded, classified upsell when the candidate
shares a category with a source product and the variant price is at least the
mean source price, each list truncated to `finalRecs`. -/
def recommendFallback (sourceProducts candidates : List Product) (finalRecs : Nat) :
    List ScoredProduct × List ScoredProduct :=
  let r := (candidates.take 20).foldl (fallbackCandidateStep sourceProducts) ([], [])
  (r.1.take finalRecs, r.2.take finalRecs)

/-- All variants of the first 20 candidates, expanded in pool order (the
entries the fallback classifies). -/
def fallbackExpand (candidates : List Product) : List ScoredProduct :=
  (candidates.take 20).flatMap (fun c => c.variants.map (mkFallbackScored c))

/-- The fallback's upsell test, read off an expanded entry: the entry's
category equals the category of at least one source product and its price is
at least the arithmetic mean of the source prices. -/
def isUpsellEntry (sourceProducts : List Product) (e : ScoredProduct) : Bool :=
  sourceProducts.any (fun p => p.category == e.category) &&
    decide (meanSourcePrice sourceProducts ≤ e.price)

/-- The `try` block of `findNearestProductsWithLLM` as an `Except` chain:
resolve the configuration, invoke the oracle backend, parse the response, and
expand the returned ids into the two truncated scored lists. -/
def rankWithOracle (env : Env) (w : OracleWorld) (candidates : List Product)
    (finalRecs : Nat) : Except String (List ScoredProduct × List ScoredProduct) :=
  match getRecommendationsAPIConfig env with
  | Except.error e => Except.error e
  | Except.ok cfg =>
    match invokeLLMBackend cfg w with
    | Except.error e => Except.error e
    | Except.ok llmResponse =>
      match parseLLMText w llmResponse with
      | Except.error e => Except.error e
      | Except.ok ids =>
        Except.ok
          ((expandOracleMatch candidates ids.1 (9/10) (85/100) (8/10)).take finalRecs,
           (expandOracleMatch candidates ids.2 (85/100) (8/10) (75/100)).take finalRecs)

/-- `findNearestProductsWithLLM`: the oracle path, with every error of the
`try` block caught and replaced by the deterministic fallback. -/
def findNearestProductsWithLLM (env : Env) (w : OracleWorld)
    (sourceProducts candidates : List Product) (finalRecs : Nat) :
    List ScoredProduct × List ScoredProduct :=
  match rankWithOracle env w candidates finalRecs with
  | Except.ok r => r
  | Except.error _ => recommendFallback sourceProducts candidates finalRecs

/-- `config.limits.final_recommendations` (src/src/config.ts). -/
def finalRecommendationsLimit : Nat := 10

/-! ## Precomputation tracker (runPrecomputation in precompute-service.ts) -/

/-- The `process_tracker` statements `runPrecomputation` can issue: the
initial insert (status `running`), the product-count update, the success
update (status `completed` and `completed_at`), and the failure update
(status `failed` only). -/
inductive TrackerOp where
  | insertRunning
  | setCount
  | setCompleted
  | setFailed
deriving DecidableEq, Repr

/-- Which fallible actions of one `runPrecomputation` invocation succeed.
`buildTagGraphWithLLM` is absent: it catches all its own errors. -/
structure PrecomputeWorld where
  insertTrackerOk : Bool
  loadCatalogOk : Bool
  updateCountOk : Bool
  embeddingsOk : Bool
  saveProductsOk : Bool
  computeScoresOk : Bool
  collectTagsOk : Bool
  saveTagGraphOk : Bool
  markCompletedOk : Bool
deriving DecidableEq, Repr

/-- The tracker statements emitted by one `runPrecomputation` invocation:
the `try` block runs the actions in source order, stopping at the first
failure; the `catch` block issues the `failed` update exactly when the
tracker insert had already succeeded (`trackerId` non-null). -/
def runPrecomputationOps (w : PrecomputeWorld) : List TrackerOp :=
  match w.insertTrackerOk with
  | false => []
  | true =>
    match w.loadCatalogOk with
    | false => [TrackerOp.insertRunning, TrackerOp.setFailed]
    | true =>
      match w.updateCountOk with
      | false => [TrackerOp.insertRunning, TrackerOp.setFailed]
      | true =>
        match w.embeddingsOk with
        | false => [TrackerOp.insertRunning, TrackerOp.setCount, TrackerOp.setFailed]
        | true =>
          match w.saveProductsOk with
          | false => [TrackerOp.insertRunning, TrackerOp.setCount, TrackerOp.setFailed]
          | true =>
            match w.computeScoresOk with
            | false => [TrackerOp.insertRunning, TrackerOp.setCount, TrackerOp.setFailed]
            | true =>
              match w.collectTagsOk with
              | false => [TrackerOp.insertRunning, TrackerOp.setCount, TrackerOp.setFailed]
              | true =>
                match w.saveTagGraphOk with
                | false => [TrackerOp.insertRunning, TrackerOp.setCount, TrackerOp.setFailed]
                | true =>
                  match w.markCompletedOk with
                  | false => [TrackerOp.insertRunning, TrackerOp.setCount, TrackerOp.setFailed]
                  | true => [TrackerOp.insertRunning, TrackerOp.setCount, TrackerOp.setCompleted]

/-- The tracker record's claim-relevant columns. -/
structure TrackerRecord where
  status : String
  completed_at_set : Bool
deriving DecidableEq, Repr

/-- Apply one tracker statement to the (at most one) record of this run. -/
def applyTrackerOp (r : Option TrackerRecord) (op : TrackerOp) : Option TrackerRecord :=
  match op, r with
  | TrackerOp.insertRunning, _ => some ⟨"running", false⟩
  | TrackerOp.setCount, some t => some t
  | TrackerOp.setCompleted, some t => some { t with status := "completed", completed_at_set := true }
  | TrackerOp.setFailed, some t => some { t with status := "failed" }
  | _, none => none

/-- The record after all statements of a run. -/
def finalTracker (w : PrecomputeWorld) : Option TrackerRecord :=
  (runPrecomputationOps w).foldl applyTrackerOp none

/-- The terminal-state check of the tracker record: it exists, its status is
`completed` or `failed`, and `completed_at` is set exactly on completion. -/
def trackerFinalOk : Option TrackerRecord → Bool
  | none => false
  | some t => (t.status == "completed" || t.status == "failed") &&
      (t.completed_at_set == (t.status == "completed"))

/-! ## The getRecommendations request path (recommendation-service) -/

/-- Outcomes of the storage statements of one `getRecommendations` request:
each of the two product queries either succeeds (the query models above give
their rows) or raises the given storage error; the per-tag `tag_graph`
lookups behave as `tagLookup` says. -/
structure StorageOutcomes where
  sourceQueryErr : Option String
  candidateQueryErr : Option String
  tagLookup : String → Except String (Option (List String))

/-- The source-tag collection of `getRecommendations`: the `Set` of the
truthy `tags` values of the source products, in insertion order. -/
def collectSourceTags (sourceProducts : List Product) : List String :=
  sourceProducts.foldl (fun acc p => if p.tags ≠ "" then addTag acc p.tags else acc) []

/-- `getRecommendations`: resolve the source products (storage errors and the
no-source-products error propagate — the catch block rethrows), collect their
tags, expand them through `getRelatedTags` (whose storage errors are absorbed
there), run the candidate query (storage errors propagate), return the empty
result on an empty pool, and otherwise rank via `findNearestProductsWithLLM`. -/
def getRecommendations (table : List Product) (st : StorageOutcomes) (env : Env)
    (w : OracleWorld) (shopId : String) (productIds : List Int) :
    Except String (List ScoredProduct × List ScoredProduct) :=
  match st.sourceQueryErr with
  | some e => Except.error e
  | none =>
    let sourceProducts := getProductsByIds table productIds
    if sourceProducts.length = 0 then Except.error "No products found for given IDs"
    else
      let sourceTags := collectSourceTags sourceProducts
      let relatedTags := getRelatedTags st.tagLookup sourceTags "crosssell" 50
      match st.candidateQueryErr with
      | some e => Except.error e
      | none =>
        let candidateProducts :=
          getCandidateProductsByTags table shopId relatedTags productIds 100
        if candidateProducts.length = 0 then Except.ok ([], [])
        else
          Except.ok (findNearestProductsWithLLM env w sourceProducts candidateProducts
            finalRecommendationsLimit)

/-! ## Concrete rows, environments and oracle states used by the witnesses and counterexamples -/

/-- The one-row table of the C9 witness. -/
def c9Table : List Product :=
  [⟨21, "s", "Tee", "t-shirts", 5, "v", [], "t-shirt", "active", 3, 0, 0⟩]

/-- C9 witness storage state: both product queries succeed, every tag_graph
lookup raises a storage error. -/
def c9FailingLookup : StorageOutcomes :=
  ⟨none, none, fun _ => Except.error "tag graph down"⟩

/-- C9 witness storage state: the source-product query raises a storage
error. -/
def c9SourceErr : StorageOutcomes :=
  ⟨some "db down", none, fun _ => Except.error "tag graph down"⟩

/-- C9 witness oracle state: everything external fails. -/
def c9World : OracleWorld := ⟨FetchOutcome.thrown "net", Except.error "sdk", fun _ => none⟩

/-- Sample product row used by the C4 witness (stock exactly 50). -/
def sampleScoreSrc : Product :=
  ⟨1, "s", "T-Shirt", "t-shirts", 5, "v", [], "t-shirt", "active", 50, 0, 0⟩

/-- The row the scoring pass produces from `sampleScoreSrc`. -/
def sampleScoreOut : Product :=
  { sampleScoreSrc with
    merchant_score := merchantScoreOfStock 50,
    purchase_score := (0 : Rat) * (1/2) + 1/2 }

/-- A product stored under a shop different from the requested one. -/
def otherShopProduct : Product :=
  ⟨7, "other-shop", "Jeans", "pants", 40, "v", [], "jeans", "active", 10, 0, 0⟩

/-- An eligible candidate row for the C1 witness. -/
def eligibleCandidate : Product :=
  ⟨3, "shop-a", "Jeans", "pants", 40, "v", [], "jeans", "active", 10, 0, 0⟩

/-- Source and candidate rows for the C2 witness. -/
def c2Source : Product :=
  ⟨11, "s", "Src", "pants", 40, "v", [], "jeans", "active", 5, 0, 0⟩

/-- Candidate row with two variants for the C2 witness. -/
def c2Candidate : Product :=
  ⟨12, "s", "Cand", "pants", 50, "v", [⟨121, "v1", 60, 2⟩, ⟨122, "v2", 10, 1⟩],
    "jeans", "active", 3, 0, 0⟩

/-- The oracle state of the C8 counterexample: the SDK answers with a bare
JSON object and the parse yields the same product id in both id arrays. -/
def overlapWorld : OracleWorld :=
  ⟨FetchOutcome.thrown "unused", Except.ok "\x7b\x7d", fun _ => some ([1], [1])⟩

/-- The single candidate of the C8 counterexample. -/
def overlapCandidate : Product :=
  ⟨1, "s", "Cand", "cat", 5, "v", [⟨10, "var", 5, 3⟩], "t", "active", 3, 1, 1⟩

/-- The single source product of the C8 counterexample. -/
def overlapSource : Product :=
  ⟨2, "s", "Src", "cat", 5, "v", [], "t", "active", 3, 1, 1⟩

/-- The oracle state of the C8 witness: disjoint id arrays. -/
def disjointWorld : OracleWorld :=
  ⟨FetchOutcome.thrown "unused", Except.ok "\x7b\x7d", fun _ => some ([1], [])⟩

/-- Declarative description of the tag set `normalizeTags` builds, with the
lowercased category and pre-existing tags also whitespace-trimmed (as the
code's `toLowerCase().trim()` does). -/
def normalizeTagsSpecMem (product : CatalogProduct) (t : String) : Prop :=
  (product.category ≠ "" ∧ t = trimStr (toLowerStr product.category))
  ∨ (∃ w ∈ splitStr titleSep (toLowerStr product.title),
      (w.length > 3 && !(isStopWord w)) = true ∧ t = w)
  ∨ (product.vendor ≠ "" ∧ t = "vendor:" ++ whitespaceRunsToDash (toLowerStr product.vendor))
  ∨ t = getPriceRangeTag product.price
  ∨ (∃ l, product.tags = some l ∧ ∃ x ∈ l, t = trimStr (toLowerStr x))

/-- Modelled from the claim's words (no trimming of the category or of the
pre-existing tags): the set C6 asserts `normalizeTags` returns. -/
def normalizeTagsClaimedMem (product : CatalogProduct) (t : String) : Prop :=
  (product.category ≠ "" ∧ t = toLowerStr product.category)
  ∨ (∃ w ∈ splitStr titleSep (toLowerStr product.title),
      (w.length > 3 && !(isStopWord w)) = true ∧ t = w)
  ∨ (product.vendor ≠ "" ∧ t = "vendor:" ++ whitespaceRunsToDash (toLowerStr product.vendor))
  ∨ t = getPriceRangeTag product.price
  ∨ (∃ l, product.tags = some l ∧ ∃ x ∈ l, t = toLowerStr x)

/-- The C6 counterexample product: a category with trailing whitespace,
no title tokens, no vendor, no pre-existing tags. -/
def trailingSpaceProduct : CatalogProduct := ⟨1, "", "Shoes ", 10, "", none⟩

/-! ## Claim C4 — merchant score is a step function of stock -/

/-- C4: after score computation every product of the shop has
`merchant_score = merchantScoreOfStock stock`; that function only takes the
values 1, 0.7, 0.4, 0.1, determined solely by the stock thresholds
(1 for stock > 50, 0.7 for 20 < stock ≤ 50, 0.4 for 0 < stock ≤ 20,
0.1 for stock ≤ 0), with the boundary cases 50 ↦ 0.7, 20 ↦ 0.4, 0 ↦ 0.1. -/
theorem merchant_score_step_function (table : List Product) (shopId : String)
    (rand : Int → Rat) :
    (∀ p ∈ computeProductScores table shopId rand,
        p.shop_id == shopId → p.merchant_score = merchantScoreOfStock p.stock)
    ∧ (∀ s : Int, merchantScoreOfStock s = 1 ∨ merchantScoreOfStock s = 7/10 ∨
        merchantScoreOfStock s = 4/10 ∨ merchantScoreOfStock s = 1/10)
    ∧ (∀ s : Int, 50 < s → merchantScoreOfStock s = 1)
    ∧ (∀ s : Int, 20 < s → s ≤ 50 → merchantScoreOfStock s = 7/10)
    ∧ (∀ s : Int, 0 < s → s ≤ 20 → merchantScoreOfStock s = 4/10)
    ∧ (∀ s : Int, s ≤ 0 → merchantScoreOfStock s = 1/10)
    ∧ merchantScoreOfStock 50 = 7/10 ∧ merchantScoreOfStock 20 = 4/10
    ∧ merchantScoreOfStock 0 = 1/10 := by
  refine ⟨?_, ?_, ?_, ?_, ?_, ?_, ?_, ?_, ?_⟩
  · intro p hp hshop
    rcases List.mem_map.1 hp with ⟨q, _, rfl⟩
    by_cases h : (q.shop_id == shopId) = true
    · simp only [h, if_true]
    · simp only [h, if_false] at hshop ⊢
      exact absurd hshop h
  · intro s
    unfold merchantScoreOfStock
    split_ifs <;> tauto
  · intro s hs
    unfold merchantScoreOfStock
    rw [if_pos hs]
  · intro s h1 h2
    unfold merchantScoreOfStock
    rw [if_neg (by omega), if_pos h1]
  · intro s h1 h2
    unfold merchantScoreOfStock
    rw [if_neg (by omega), if_neg (by omega), if_pos h1]
  · intro s h1
    unfold merchantScoreOfStock
    rw [if_neg (by omega), if_neg (by omega), if_neg (by omega)]
  · norm_num [merchantScoreOfStock]
  · norm_num [merchantScoreOfStock]
  · norm_num [merchantScoreOfStock]

/-- Witness for C4: the theorem applied to a one-row table at stock 50. -/
theorem merchant_score_step_function_witness :
    sampleScoreOut.merchant_score = merchantScoreOfStock sampleScoreOut.stock :=
  (merchant_score_step_function [sampleScoreSrc] "s" (fun _ => 0)).1 sampleScoreOut
    (List.mem_singleton.mpr rfl) rfl

/-! ## Claim C10 — source-product lookup ignores the requested shop -/

/-- C10: the source-product lookup of `getRecommendations` selects by id
alone: a product is returned exactly when its id is requested, with no
condition on the requested shop, and the result is identical for any two
requested shop ids. -/
theorem source_lookup_ignores_shop (table : List Product) (shopId : String)
    (productIds : List Int) :
    (∀ p, p ∈ getRecommendationsSourceLookup table shopId productIds ↔
        p ∈ table ∧ p.id ∈ productIds)
    ∧ (∀ shopId2, getRecommendationsSourceLookup table shopId productIds =
        getRecommendationsSourceLookup table shopId2 productIds) := by
  constructor
  · intro p
    simp [getRecommendationsSourceLookup, getProductsByIds, List.mem_filter,
      List.elem_iff]
  · intro shopId2
    rfl

/-- Witness for C10: a product of `other-shop` is still resolved as a source
product of a request for `shop-a`. -/
theorem source_lookup_ignores_shop_witness :
    otherShopProduct ∈ getRecommendationsSourceLookup [otherShopProduct] "shop-a" [7]
    ∧ otherShopProduct.shop_id ≠ "shop-a" :=
  ⟨((source_lookup_ignores_shop [otherShopProduct] "shop-a" [7]).1 otherShopProduct).mpr
      ⟨List.mem_singleton.mpr rfl, by decide⟩,
    by decide⟩

/-! ## Claim C9 — storage errors in the related-tag lookup do not propagate -/

/-- C9 counterexample: a run of `getRelatedTags` whose every `tag_graph`
lookup raises a storage error returns the plain value `[]`, indistinguishable
from a successful run against an empty graph — the error is converted into a
normal result instead of propagating. -/
theorem related_tags_storage_error_swallowed :
    getRelatedTags (fun _ => Except.error "storage failure") ["t-shirt"] "crosssell" 50 =
      getRelatedTags (fun _ => Except.ok none) ["t-shirt"] "crosssell" 50
    ∧ getRelatedTags (fun _ => Except.error "storage failure") ["t-shirt"] "crosssell" 50 = [] :=
  ⟨rfl, rfl⟩

/-- C9 amended: whenever a storage error arises anywhere in the related-tag
lookup loop, `getRelatedTags` catches it and returns the empty list (a
normal, non-error result). -/
theorem related_tags_error_yields_empty
    (lookup : String → Except String (Option (List String)))
    (tags : List String) (recommendationType : String) (maxTags : Nat) (e : String)
    (h : collectRelatedTags lookup tags [] = Except.error e) :
    getRelatedTags lookup tags recommendationType maxTags = [] := by
  unfold getRelatedTags
  rw [h]

/-- Concrete instance of the lookup-error-to-empty behaviour. -/
theorem related_tags_error_yields_empty_witness :
    getRelatedTags (fun _ => Except.error "db down") ["a", "b"] "crosssell" 50 = [] :=
  related_tags_error_yields_empty (fun _ => Except.error "db down") ["a", "b"]
    "crosssell" 50 "db down" rfl

/-- C9 amended: on the `getRecommendations` request path, storage errors of
the source-product query and of the candidate query propagate to the caller,
while a storage error raised during the related-tag lookup against the tag
graph is caught inside `getRelatedTags` and converted into the empty
related-tag list — with both product queries succeeding and the source
products resolving, the request returns a normal (non-error) result no
matter how the tag_graph lookups fail. -/
theorem request_path_storage_error_policy (table : List Product)
    (st : StorageOutcomes) (env : Env) (w : OracleWorld) (shopId : String)
    (productIds : List Int) :
    (∀ e, st.sourceQueryErr = some e →
        getRecommendations table st env w shopId productIds = Except.error e)
    ∧ (∀ e, st.sourceQueryErr = none → st.candidateQueryErr = some e →
        (getProductsByIds table productIds).length ≠ 0 →
        getRecommendations table st env w shopId productIds = Except.error e)
    ∧ (∀ tags rt maxTags e, collectRelatedTags st.tagLookup tags [] = Except.error e →
        getRelatedTags st.tagLookup tags rt maxTags = [])
    ∧ (st.sourceQueryErr = none → st.candidateQueryErr = none →
        (getProductsByIds table productIds).length ≠ 0 →
        ∃ r, getRecommendations table st env w shopId productIds = Except.ok r) := by
  refine ⟨?_, ?_, ?_, ?_⟩
  · intro e he
    simp [getRecommendations, he]
  · intro e h0 he hne
    simp [getRecommendations, h0, he, hne]
  · intro tags rt maxTags e h
    exact related_tags_error_yields_empty st.tagLookup tags rt maxTags e h
  · intro h0 h1 hne
    simp only [getRecommendations, h0, h1]
    rw [if_neg hne]
    split_ifs <;> exact ⟨_, rfl⟩

/-- Witness for the amended C9: a concrete source-query storage error
surfaces as the request's error, while with the product queries succeeding a
concrete run whose every tag_graph lookup fails still returns a normal
result. -/
theorem request_path_storage_error_policy_witness :
    getRecommendations c9Table c9SourceErr ⟨none, none, none⟩ c9World "s" [21] =
        Except.error "db down"
    ∧ ∃ r, getRecommendations c9Table c9FailingLookup ⟨none, none, none⟩ c9World "s" [21] =
        Except.ok r :=
  ⟨(request_path_storage_error_policy c9Table c9SourceErr ⟨none, none, none⟩ c9World
        "s" [21]).1 "db down" rfl,
    (request_path_storage_error_policy c9Table c9FailingLookup ⟨none, none, none⟩ c9World
        "s" [21]).2.2.2 rfl rfl (by decide)⟩

/-! ## Claim C1 — the candidate-selection query contract -/

/-- C1: every row returned by the candidate query belongs to the requested
shop, is active with positive stock, has its primary tag in the related-tag
set and is not a source id; at most `limit` rows are returned; and the rows
are ordered by `merchant_score * 0.6 + purchase_score * 0.4` non-increasing. -/
theorem candidate_query_contract (table : List Product) (shopId : String)
    (tags : List String) (excludeIds : List Int) (limit : Nat) :
    (∀ p ∈ getCandidateProductsByTags table shopId tags excludeIds limit,
        p.shop_id = shopId ∧ p.status = "active" ∧ 0 < p.stock ∧
          p.tags ∈ tags ∧ p.id ∉ excludeIds)
    ∧ (getCandidateProductsByTags table shopId tags excludeIds limit).length ≤ limit
    ∧ (getCandidateProductsByTags table shopId tags excludeIds limit).Sorted byScoreDesc := by
  refine ⟨?_, ?_, ?_⟩
  · intro p hp
    have h1 : p ∈ (table.filter (candidateMatches shopId tags excludeIds)).insertionSort
        byScoreDesc :=
      (List.take_sublist _ _).subset hp
    have h2 := (List.mem_insertionSort byScoreDesc).1 h1
    have h3 := (List.mem_filter.1 h2).2
    simp only [candidateMatches, Bool.and_eq_true, beq_iff_eq, Bool.not_eq_true',
      decide_eq_true_eq, List.elem_iff] at h3
    obtain ⟨⟨⟨⟨hshop, hexcl⟩, hstatus⟩, hstock⟩, htag⟩ := h3
    refine ⟨hshop, hstatus, hstock, htag, fun hmem => ?_⟩
    rw [List.contains, List.elem_iff.2 hmem] at hexcl
    exact Bool.true_eq_false.mp hexcl
  · exact List.length_take_le _ _
  · exact (List.sorted_insertionSort byScoreDesc _).sublist (List.take_sublist _ _)

/-- Witness for C1: the theorem applied to a one-row table whose row matches
every clause of the query. -/
theorem candidate_query_contract_witness :
    eligibleCandidate.shop_id = "shop-a" ∧ eligibleCandidate.status = "active" ∧
      (0:Int) < eligibleCandidate.stock ∧ eligibleCandidate.tags ∈ ["jeans"] ∧
      eligibleCandidate.id ∉ ([2] : List Int) :=
  (candidate_query_contract [eligibleCandidate] "shop-a" ["jeans"] [2] 100).1
    eligibleCandidate (List.mem_singleton.mpr rfl)

/-! ## Claim C3 — every oracle-path error degrades to the fallback -/

/-- C3: any error in the oracle invocation or response-parsing chain of the
ranking path — missing API key configuration, a thrown network error, a
non-2xx HTTP response, no JSON block in the response text, or a JSON parse
failure — makes `findNearestProductsWithLLM` return the deterministic
fallback result; no error of that chain escapes to the caller. -/
theorem oracle_errors_never_escape (env : Env) (w : OracleWorld)
    (sourceProducts candidates : List Product) (finalRecs : Nat) :
    ((∃ e, rankWithOracle env w candidates finalRecs = Except.error e) →
        findNearestProductsWithLLM env w sourceProducts candidates finalRecs =
          recommendFallback sourceProducts candidates finalRecs)
    ∧ ((∃ e, getRecommendationsAPIConfig env = Except.error e) →
        ∃ e, rankWithOracle env w candidates finalRecs = Except.error e)
    ∧ (∀ cfg, getRecommendationsAPIConfig env = Except.ok cfg →
        (∃ e, invokeLLMBackend cfg w = Except.error e) →
        ∃ e, rankWithOracle env w candidates finalRecs = Except.error e)
    ∧ (∀ cfg t, getRecommendationsAPIConfig env = Except.ok cfg →
        invokeLLMBackend cfg w = Except.ok t →
        (∃ e, parseLLMText w t = Except.error e) →
        ∃ e, rankWithOracle env w candidates finalRecs = Except.error e)
    ∧ (env.USE_NEUROLINK = none → env.RECOMMENDATIONS_API_KEY = none →
        env.GRID_AI_API_KEY = none →
        ∃ e, getRecommendationsAPIConfig env = Except.error e)
    ∧ (∀ cfg msg, cfg.useNeurolink = false → w.fetchOutcome = FetchOutcome.thrown msg →
        ∃ e, invokeLLMBackend cfg w = Except.error e)
    ∧ (∀ cfg status content, cfg.useNeurolink = false →
        w.fetchOutcome = FetchOutcome.response false status content →
        ∃ e, invokeLLMBackend cfg w = Except.error e)
    ∧ (∀ t, extractJsonBlock (trimStr (stripTrailingFence (stripLeadingFence t))) = none →
        ∃ e, parseLLMText w t = Except.error e)
    ∧ (∀ t block,
        extractJsonBlock (trimStr (stripTrailingFence (stripLeadingFence t))) = some block →
        w.jsonParse block = none → ∃ e, parseLLMText w t = Except.error e) := by
  refine ⟨?_, ?_, ?_, ?_, ?_, ?_, ?_, ?_, ?_⟩
  · rintro ⟨e, he⟩
    unfold findNearestProductsWithLLM
    rw [he]
  · rintro ⟨e, he⟩
    refine ⟨e, ?_⟩
    unfold rankWithOracle
    rw [he]
  · rintro cfg hcfg ⟨e, he⟩
    refine ⟨e, ?_⟩
    simp only [rankWithOracle, hcfg, he]
  · rintro cfg t hcfg hinv ⟨e, he⟩
    refine ⟨e, ?_⟩
    simp only [rankWithOracle, hcfg, hinv, he]
  · intro h1 h2 h3
    simp [getRecommendationsAPIConfig, shouldUseNeurolink, gridKeyBranch, h1, h2, h3]
  · intro cfg msg hcfg hfetch
    simp [invokeLLMBackend, hcfg, hfetch]
  · intro cfg status content hcfg hfetch
    simp [invokeLLMBackend, hcfg, hfetch]
  · intro t hext
    simp [parseLLMText, hext]
  · intro t block hext hparse
    simp [parseLLMText, hext, hparse]

/-- Witness for C3: with no API key configured and the network down, the
ranking engine returns exactly the fallback result. -/
theorem oracle_errors_never_escape_witness :
    findNearestProductsWithLLM ⟨none, none, none⟩
        ⟨FetchOutcome.thrown "network down", Except.error "no sdk", fun _ => none⟩
        [] [] 10 =
      recommendFallback [] [] 10 :=
  (oracle_errors_never_escape ⟨none, none, none⟩
      ⟨FetchOutcome.thrown "network down", Except.error "no sdk", fun _ => none⟩ [] [] 10).1
    ⟨"No API key found: set USE_NEUROLINK=true, RECOMMENDATIONS_API_KEY, or GRID_AI_API_KEY",
      rfl⟩

/-! ## Claim C5 — the fallback path is deterministic -/

/-- C5: the fallback is a pure function of the source products and the
candidate pool: two invocations whose oracle chains fail — in any two
(possibly different) configuration/oracle states — produce identical output,
namely the fallback of the shared inputs, with identical entry order and
category assignment. -/
theorem fallback_invocations_identical (env₁ env₂ : Env) (w₁ w₂ : OracleWorld)
    (sourceProducts candidates : List Product) (finalRecs : Nat)
    (h₁ : ∃ e, rankWithOracle env₁ w₁ candidates finalRecs = Except.error e)
    (h₂ : ∃ e, rankWithOracle env₂ w₂ candidates finalRecs = Except.error e) :
    findNearestProductsWithLLM env₁ w₁ sourceProducts candidates finalRecs =
      findNearestProductsWithLLM env₂ w₂ sourceProducts candidates finalRecs
    ∧ findNearestProductsWithLLM env₁ w₁ sourceProducts candidates finalRecs =
      recommendFallback sourceProducts candidates finalRecs := by
  rcases h₁ with ⟨e₁, he₁⟩
  rcases h₂ with ⟨e₂, he₂⟩
  unfold findNearestProductsWithLLM
  rw [he₁, he₂]
  exact ⟨rfl, rfl⟩

/-- Witness for C5: two concrete invocations failing for different reasons
(missing configuration vs. thrown fetch) return the same result. -/
theorem fallback_invocations_identical_witness :
    findNearestProductsWithLLM ⟨none, none, none⟩
        ⟨FetchOutcome.thrown "boom", Except.error "sdk", fun _ => none⟩ [] [] 10 =
      findNearestProductsWithLLM ⟨none, none, some "key"⟩
        ⟨FetchOutcome.thrown "boom", Except.error "sdk", fun _ => none⟩ [] [] 10 :=
  (fallback_invocations_identical ⟨none, none, none⟩ ⟨none, none, some "key"⟩
      ⟨FetchOutcome.thrown "boom", Except.error "sdk", fun _ => none⟩
      ⟨FetchOutcome.thrown "boom", Except.error "sdk", fun _ => none⟩
      [] [] 10
      ⟨"No API key found: set USE_NEUROLINK=true, RECOMMENDATIONS_API_KEY, or GRID_AI_API_KEY",
        rfl⟩
      ⟨"boom", rfl⟩).1

/-! ## Claim C7 — tracker lifecycle of one precomputation run -/

/-- C7: provided the initial tracker insert succeeds, one invocation of
`runPrecomputation` creates exactly one tracker record, as its first tracker
statement and in status `running`; it issues exactly one terminal status
update — `completed` on success or `failed` on any error, never both — and
the final record has `completed_at` set exactly when it completed. -/
theorem tracker_lifecycle (w : PrecomputeWorld) (h : w.insertTrackerOk = true) :
    (runPrecomputationOps w).count TrackerOp.insertRunning = 1
    ∧ (runPrecomputationOps w).head? = some TrackerOp.insertRunning
    ∧ (runPrecomputationOps w).count TrackerOp.setCompleted +
        (runPrecomputationOps w).count TrackerOp.setFailed = 1
    ∧ trackerFinalOk (finalTracker w) = true := by
  obtain ⟨i, a, b, c, d, e, f, g, k⟩ := w
  subst h
  cases a <;> cases b <;> cases c <;> cases d <;> cases e <;> cases f <;> cases g <;>
    cases k <;> exact ⟨by decide, by decide, by decide, by decide⟩

/-- Witness for C7: a fully successful run. -/
theorem tracker_lifecycle_witness :
    (runPrecomputationOps ⟨true, true, true, true, true, true, true, true, true⟩).count
        TrackerOp.insertRunning = 1
    ∧ (runPrecomputationOps ⟨true, true, true, true, true, true, true, true, true⟩).head? =
        some TrackerOp.insertRunning
    ∧ (runPrecomputationOps ⟨true, true, true, true, true, true, true, true, true⟩).count
          TrackerOp.setCompleted +
        (runPrecomputationOps ⟨true, true, true, true, true, true, true, true, true⟩).count
          TrackerOp.setFailed = 1
    ∧ trackerFinalOk (finalTracker ⟨true, true, true, true, true, true, true, true, true⟩) =
        true :=
  tracker_lifecycle ⟨true, true, true, true, true, true, true, true, true⟩ rfl

/-! ## Claim C2 — the fallback equals its declarative description -/

/-- The inner variant loop of the fallback appends, to the two accumulators,
exactly the expanded entries of the candidate split by the upsell test. -/
theorem fallbackVariantStep_foldl (src : List Product) (c : Product)
    (vs : List ProductVariant) :
    ∀ acc : List ScoredProduct × List ScoredProduct,
      vs.foldl (fallbackVariantStep src c) acc =
        (acc.1 ++ (vs.map (mkFallbackScored c)).filter (isUpsellEntry src),
         acc.2 ++ (vs.map (mkFallbackScored c)).filter (fun e => !(isUpsellEntry src e))) := by
  induction vs with
  | nil => intro acc; simp
  | cons v vs ih =>
    intro acc
    rw [List.foldl_cons, ih]
    have hc : (src.any (fun p => p.category == c.category) &&
        decide (meanSourcePrice src ≤ v.price)) = isUpsellEntry src (mkFallbackScored c v) := rfl
    simp only [fallbackVariantStep]
    rw [hc]
    cases h : isUpsellEntry src (mkFallbackScored c v) <;>
      simp [h, List.filter_cons]

/-- The outer candidate loop of the fallback appends exactly the expanded
entries of the candidate list split by the upsell test. -/
theorem fallbackCandidateStep_foldl (src : List Product) (cs : List Product) :
    ∀ acc : List ScoredProduct × List ScoredProduct,
      cs.foldl (fallbackCandidateStep src) acc =
        (acc.1 ++ (cs.flatMap (fun c => c.variants.map (mkFallbackScored c))).filter
            (isUpsellEntry src),
         acc.2 ++ (cs.flatMap (fun c => c.variants.map (mkFallbackScored c))).filter
            (fun e => !(isUpsellEntry src e))) := by
  induction cs with
  | nil => intro acc; simp
  | cons c cs ih =>
    intro acc
    rw [List.foldl_cons, fallbackCandidateStep, fallbackVariantStep_foldl, ih]
    simp [List.filter_append, List.append_assoc]

/-- C2: for a non-empty source list, the fallback takes exactly the first 20
candidates in pool order, expands every variant of each taken candidate,
classifies an expanded entry upsell exactly when the candidate's category
equals the category of some source product and the variant price is at least
the arithmetic mean of the source prices (otherwise crosssell), and truncates
each category list to `finalRecs` entries. -/
theorem fallback_is_partition_of_first20 (sourceProducts candidates : List Product)
    (finalRecs : Nat) (h : sourceProducts ≠ []) :
    recommendFallback sourceProducts candidates finalRecs =
      (((fallbackExpand candidates).filter (isUpsellEntry sourceProducts)).take finalRecs,
       ((fallbackExpand candidates).filter
          (fun e => !(isUpsellEntry sourceProducts e))).take finalRecs) := by
  unfold recommendFallback fallbackExpand
  rw [fallbackCandidateStep_foldl]
  simp

/-- Witness for C2: the theorem applied to a concrete non-empty source list. -/
theorem fallback_is_partition_of_first20_witness :
    recommendFallback [c2Source] [c2Candidate] 10 =
      (((fallbackExpand [c2Candidate]).filter (isUpsellEntry [c2Source])).take 10,
       ((fallbackExpand [c2Candidate]).filter
          (fun e => !(isUpsellEntry [c2Source] e))).take 10) :=
  fallback_is_partition_of_first20 [c2Source] [c2Candidate] 10 (by decide)

/-! ## Claim C8 — disjointness of the upsell and crosssell lists -/

/-- Every entry produced by the success path's id loop carries an id from the
processed id list (or was already in the accumulator). -/
theorem oracleMatchStep_foldl_mem (cands : List Product) (score esim psim : Rat) :
    ∀ (ids : List Int) (acc : List ScoredProduct) (e : ScoredProduct),
      e ∈ ids.foldl (oracleMatchStep cands score esim psim) acc →
        e ∈ acc ∨ e.id ∈ ids := by
  intro ids
  induction ids with
  | nil => intro acc e h; exact Or.inl h
  | cons pid ids ih =>
    intro acc e h
    rw [List.foldl_cons] at h
    rcases ih _ e h with h' | h'
    · unfold oracleMatchStep at h'
      cases hf : cands.find? (fun c => c.id == pid) with
      | none => rw [hf] at h'; exact Or.inl h'
      | some cand =>
        rw [hf] at h'
        rcases List.mem_append.1 h' with h'' | h''
        · exact Or.inl h''
        · right
          rcases List.mem_map.1 h'' with ⟨v, _, rfl⟩
          have hid : cand.id = pid := by simpa using List.find?_some hf
          simp [hid]
    · exact Or.inr (List.mem_cons_of_mem _ h')

/-- Entries of `expandOracleMatch` carry ids from the given id list. -/
theorem expandOracleMatch_id_mem (cands : List Product) (ids : List Int)
    (score esim psim : Rat) (e : ScoredProduct)
    (h : e ∈ expandOracleMatch cands ids score esim psim) : e.id ∈ ids := by
  rcases oracleMatchStep_foldl_mem cands score esim psim ids [] e h with h' | h'
  · cases h'
  · exact h'

/-- Every entry of the fallback expansion comes from one of the first 20
candidates and one of its variants. -/
theorem mem_fallbackExpand (cands : List Product) (e : ScoredProduct)
    (h : e ∈ fallbackExpand cands) :
    ∃ c ∈ cands.take 20, ∃ v ∈ c.variants, e = mkFallbackScored c v := by
  unfold fallbackExpand at h
  rcases List.mem_flatMap.1 h with ⟨c, hc, hm⟩
  rcases List.mem_map.1 hm with ⟨v, hv, rfl⟩
  exact ⟨c, hc, v, hv, rfl⟩

/-- The fallback as a declarative partition (shared helper). -/
theorem recommendFallback_eq_partition (src cands : List Product) (n : Nat) :
    recommendFallback src cands n =
      (((fallbackExpand cands).filter (isUpsellEntry src)).take n,
       ((fallbackExpand cands).filter (fun e => !(isUpsellEntry src e))).take n) := by
  unfold recommendFallback fallbackExpand
  rw [fallbackCandidateStep_foldl]
  simp

/-- On duplicate-free candidate ids and variant ids, the two fallback lists
share no (product id, variant id) pair. -/
theorem fallback_keys_disjoint (src cands : List Product) (n : Nat)
    (hids : (cands.map (fun c => c.id)).Nodup)
    (hvars : ∀ c ∈ cands, (c.variants.map (fun v => v.id)).Nodup) :
    ∀ k, k ∈ (recommendFallback src cands n).1.map (fun e => (e.id, e.variant_id)) →
      k ∉ (recommendFallback src cands n).2.map (fun e => (e.id, e.variant_id)) := by
  intro k h1 h2
  rw [recommendFallback_eq_partition] at h1 h2
  rcases List.mem_map.1 h1 with ⟨e1, he1, hk1⟩
  rcases List.mem_map.1 h2 with ⟨e2, he2, hk2⟩
  have he1' := List.mem_filter.1 ((List.take_sublist _ _).subset he1)
  have he2' := List.mem_filter.1 ((List.take_sublist _ _).subset he2)
  rcases mem_fallbackExpand cands e1 he1'.1 with ⟨c1, hc1, v1, hv1, rfl⟩
  rcases mem_fallbackExpand cands e2 he2'.1 with ⟨c2, hc2, v2, hv2, rfl⟩
  have hkey := hk1.trans hk2.symm
  have hcid : c1.id = c2.id := by
    simpa [mkFallbackScored] using congrArg Prod.fst hkey
  have hvid : v1.id = v2.id := by
    simpa [mkFallbackScored] using congrArg Prod.snd hkey
  have hc1m : c1 ∈ cands := (List.take_sublist _ _).subset hc1
  have hc2m : c2 ∈ cands := (List.take_sublist _ _).subset hc2
  have hceq : c1 = c2 := List.inj_on_of_nodup_map hids hc1m hc2m hcid
  subst hceq
  have hveq : v1 = v2 := List.inj_on_of_nodup_map (hvars c1 hc1m) hv1 hv2 hvid
  subst hveq
  rw [he1'.2] at he2'
  simp at he2'

/-- Inversion of a successful parse: the response text contains a JSON block
accepted by `JSON.parse`. -/
theorem parseLLMText_ok_inv (w : OracleWorld) (t : String) (ids : List Int × List Int)
    (h : parseLLMText w t = Except.ok ids) :
    ∃ block, extractJsonBlock (trimStr (stripTrailingFence (stripLeadingFence t))) =
        some block ∧ w.jsonParse block = some ids := by
  simp only [parseLLMText] at h
  cases he : extractJsonBlock (trimStr (stripTrailingFence (stripLeadingFence t))) with
  | none => simp [he] at h
  | some block =>
    simp only [he] at h
    cases hp : w.jsonParse block with
    | none => simp [hp] at h
    | some ids2 =>
      simp only [hp] at h
      exact ⟨block, rfl, by rw [hp, Except.ok.inj h]⟩

/-- Inversion of a successful oracle chain: the result is the variant
expansion of two parsed id lists. -/
theorem rankWithOracle_ok_inv (env : Env) (w : OracleWorld) (cands : List Product)
    (n : Nat) (r : List ScoredProduct × List ScoredProduct)
    (h : rankWithOracle env w cands n = Except.ok r) :
    ∃ block ids, w.jsonParse block = some ids ∧
      r = ((expandOracleMatch cands ids.1 (9/10) (85/100) (8/10)).take n,
           (expandOracleMatch cands ids.2 (85/100) (8/10) (75/100)).take n) := by
  unfold rankWithOracle at h
  cases hc : getRecommendationsAPIConfig env with
  | error e => simp [hc] at h
  | ok cfg =>
    simp only [hc] at h
    cases hi : invokeLLMBackend cfg w with
    | error e => simp [hi] at h
    | ok t =>
      simp only [hi] at h
      cases hp : parseLLMText w t with
      | error e => simp [hp] at h
      | ok ids =>
        simp only [hp] at h
        rcases parseLLMText_ok_inv w t ids hp with ⟨block, hb, hj⟩
        exact ⟨block, ids, hj, (Except.ok.inj h).symm⟩

/-- C8 counterexample: on the oracle-success path, an oracle answer listing
the same candidate id under both categories puts the same
(product id, variant id) pair — here (1, 10) — into both output lists, so the
upsell and crosssell lists are not disjoint for every request. -/
theorem recommendation_lists_overlap_cex :
    ((1:Int), (10:Int)) ∈ (findNearestProductsWithLLM ⟨some "true", none, none⟩
        overlapWorld [overlapSource] [overlapCandidate] 10).1.map
        (fun e => (e.id, e.variant_id))
    ∧ ((1:Int), (10:Int)) ∈ (findNearestProductsWithLLM ⟨some "true", none, none⟩
        overlapWorld [overlapSource] [overlapCandidate] 10).2.map
        (fun e => (e.id, e.variant_id)) :=
  ⟨by decide, by decide⟩

/-- C8 amended: with duplicate-free candidate ids (the products table primary
key), duplicate-free variant ids within each candidate, and an oracle answer
whose upsell and crosssell id arrays are disjoint, no (product id, variant id)
pair appears in both output lists — on the fallback path this needs no
condition on the oracle answer. -/
theorem recommendation_lists_disjoint (env : Env) (w : OracleWorld)
    (sourceProducts candidates : List Product) (finalRecs : Nat)
    (hids : (candidates.map (fun c => c.id)).Nodup)
    (hvars : ∀ c ∈ candidates, (c.variants.map (fun v => v.id)).Nodup)
    (hparse : ∀ s u cr, w.jsonParse s = some (u, cr) → ∀ i ∈ u, i ∉ cr) :
    ∀ k, k ∈ (findNearestProductsWithLLM env w sourceProducts candidates finalRecs).1.map
        (fun e => (e.id, e.variant_id)) →
      k ∉ (findNearestProductsWithLLM env w sourceProducts candidates finalRecs).2.map
        (fun e => (e.id, e.variant_id)) := by
  intro k h1 h2
  unfold findNearestProductsWithLLM at h1 h2
  cases hr : rankWithOracle env w candidates finalRecs with
  | error e =>
    rw [hr] at h1 h2
    exact fallback_keys_disjoint sourceProducts candidates finalRecs hids hvars k h1 h2
  | ok r =>
    rw [hr] at h1 h2
    obtain ⟨block, ids, hj, rfl⟩ :=
      rankWithOracle_ok_inv env w candidates finalRecs r hr
    rcases List.mem_map.1 h1 with ⟨e1, he1, hk1⟩
    rcases List.mem_map.1 h2 with ⟨e2, he2, hk2⟩
    have m1 := expandOracleMatch_id_mem candidates ids.1 (9/10) (85/100) (8/10) e1
      ((List.take_sublist _ _).subset he1)
    have m2 := expandOracleMatch_id_mem candidates ids.2 (85/100) (8/10) (75/100) e2
      ((List.take_sublist _ _).subset he2)
    have heq : e1.id = e2.id := congrArg Prod.fst (hk1.trans hk2.symm)
    exact hparse block ids.1 ids.2 (by simpa using hj) e1.id m1 (heq ▸ m2)

/-- Witness for the amended C8: the theorem applied to concrete inputs whose
hypotheses hold, instantiated at the key (1, 10), which is in the upsell
list, hence not in the crosssell list. -/
theorem recommendation_lists_disjoint_witness :
    ((1:Int), (10:Int)) ∉ (findNearestProductsWithLLM ⟨some "true", none, none⟩
        disjointWorld [overlapSource] [overlapCandidate] 10).2.map
        (fun e => (e.id, e.variant_id)) :=
  recommendation_lists_disjoint ⟨some "true", none, none⟩ disjointWorld
    [overlapSource] [overlapCandidate] 10 (by decide)
    (by intro c hc; rw [List.mem_singleton.1 hc]; decide)
    (by
      intro s u cr hu i hiu
      have h2 : (([1], []) : List Int × List Int) = (u, cr) := Option.some.inj hu
      injection h2 with hu2 hcr2
      rw [← hcr2]
      exact List.not_mem_nil i)
    ((1:Int), (10:Int)) (by decide)

/-! ## Claim C6 — the tag normalizer's output set -/

/-- Membership in a `Set.add` step. -/
theorem mem_addTag (acc : List String) (x t : String) :
    t ∈ addTag acc x ↔ t ∈ acc ∨ t = x := by
  unfold addTag
  split_ifs with h
  · constructor
    · exact Or.inl
    · rintro (h' | rfl)
      · exact h'
      · exact h
  · simp [List.mem_append]

/-- Membership after the title-token loop of `normalizeTags`. -/
theorem mem_titleFold (l : List String) :
    ∀ (acc : List String) (t : String),
      t ∈ l.foldl
          (fun acc word =>
            if word.length > 3 && !(isStopWord word) then addTag acc word else acc) acc ↔
        t ∈ acc ∨ ∃ w ∈ l, (w.length > 3 && !(isStopWord w)) = true ∧ t = w := by
  induction l with
  | nil => simp
  | cons x l ih =>
    intro acc t
    rw [List.foldl_cons, ih]
    by_cases h : (x.length > 3 && !(isStopWord x)) = true
    · rw [if_pos h, mem_addTag]
      constructor
      · rintro ((ha | hteq) | ⟨y, hy, hpy, hty⟩)
        · exact Or.inl ha
        · exact Or.inr ⟨x, List.mem_cons_self x l, h, hteq⟩
        · exact Or.inr ⟨y, List.mem_cons_of_mem _ hy, hpy, hty⟩
      · rintro (ha | ⟨y, hy, hpy, hty⟩)
        · exact Or.inl (Or.inl ha)
        · rcases List.mem_cons.1 hy with heq | hy'
          · exact Or.inl (Or.inr (heq ▸ hty))
          · exact Or.inr ⟨y, hy', hpy, hty⟩
    · rw [if_neg h]
      constructor
      · rintro (ha | ⟨y, hy, hpy, hty⟩)
        · exact Or.inl ha
        · exact Or.inr ⟨y, List.mem_cons_of_mem _ hy, hpy, hty⟩
      · rintro (ha | ⟨y, hy, hpy, hty⟩)
        · exact Or.inl ha
        · rcases List.mem_cons.1 hy with heq | hy'
          · exact absurd (heq ▸ hpy) h
          · exact Or.inr ⟨y, hy', hpy, hty⟩

/-- Membership after the pre-existing-tags loop of `normalizeTags`. -/
theorem mem_existingFold (l : List String) :
    ∀ (acc : List String) (t : String),
      t ∈ l.foldl (fun acc x => addTag acc (trimStr (toLowerStr x))) acc ↔
        t ∈ acc ∨ ∃ x ∈ l, t = trimStr (toLowerStr x) := by
  induction l with
  | nil => simp
  | cons x l ih =>
    intro acc t
    rw [List.foldl_cons, ih, mem_addTag]
    constructor
    · rintro ((ha | hteq) | ⟨y, hy, hty⟩)
      · exact Or.inl ha
      · exact Or.inr ⟨x, List.mem_cons_self x l, hteq⟩
      · exact Or.inr ⟨y, List.mem_cons_of_mem _ hy, hty⟩
    · rintro (ha | ⟨y, hy, hty⟩)
      · exact Or.inl (Or.inl ha)
      · rcases List.mem_cons.1 hy with heq | hy'
        · exact Or.inl (Or.inr (heq ▸ hty))
        · exact Or.inr ⟨y, hy', hty⟩

set_option maxHeartbeats 1600000 in
/-- C6 amended: `normalizeTags` returns exactly the set consisting of the
lowercased-and-trimmed category (when present), the lowercased title tokens
longer than 3 characters that are not stop words, the dashed vendor tag (when
present), the price-bucket tag, and the lowercased-and-trimmed pre-existing
tags; missing fields are skipped and no error is raised (the function is
total). -/
theorem normalize_tags_exact_set (product : CatalogProduct) (t : String) :
    t ∈ normalizeTags product ↔ normalizeTagsSpecMem product t := by
  have hcore : t ∈ addTag
      (if product.vendor ≠ "" then
        addTag ((splitStr titleSep (toLowerStr product.title)).foldl
            (fun acc word =>
              if word.length > 3 && !(isStopWord word) then addTag acc word else acc)
            (if product.category ≠ "" then addTag [] (trimStr (toLowerStr product.category))
             else []))
          ("vendor:" ++ whitespaceRunsToDash (toLowerStr product.vendor))
      else (splitStr titleSep (toLowerStr product.title)).foldl
            (fun acc word =>
              if word.length > 3 && !(isStopWord word) then addTag acc word else acc)
            (if product.category ≠ "" then addTag [] (trimStr (toLowerStr product.category))
             else []))
      (getPriceRangeTag product.price) ↔
      ((product.category ≠ "" ∧ t = trimStr (toLowerStr product.category))
       ∨ (∃ w ∈ splitStr titleSep (toLowerStr product.title),
            (w.length > 3 && !(isStopWord w)) = true ∧ t = w)
       ∨ (product.vendor ≠ "" ∧
            t = "vendor:" ++ whitespaceRunsToDash (toLowerStr product.vendor))
       ∨ t = getPriceRangeTag product.price) := by
    rw [mem_addTag]
    by_cases hv : product.vendor ≠ ""
    · rw [if_pos hv, mem_addTag, mem_titleFold]
      by_cases hcat : product.category ≠ ""
      · rw [if_pos hcat, mem_addTag]
        simp only [List.not_mem_nil, false_or, hv, hcat, true_and]
        aesop
      · rw [if_neg hcat]
        simp only [List.not_mem_nil, hv, true_and]
        have hnc : ¬ (product.category ≠ "" ∧ t = trimStr (toLowerStr product.category)) :=
          fun hh => hcat hh.1
        aesop
    · rw [if_neg hv, mem_titleFold]
      have hnv : ¬ (product.vendor ≠ "" ∧
          t = "vendor:" ++ whitespaceRunsToDash (toLowerStr product.vendor)) :=
        fun hh => hv hh.1
      by_cases hcat : product.category ≠ ""
      · rw [if_pos hcat, mem_addTag]
        simp only [List.not_mem_nil, false_or, hcat, true_and]
        aesop
      · rw [if_neg hcat]
        simp only [List.not_mem_nil]
        have hnc : ¬ (product.category ≠ "" ∧ t = trimStr (toLowerStr product.category)) :=
          fun hh => hcat hh.1
        aesop
  unfold normalizeTags normalizeTagsSpecMem
  cases htags : product.tags with
  | none =>
    rw [hcore]
    have hnone : ¬ ∃ l, (none : Option (List String)) = some l ∧
        ∃ x ∈ l, t = trimStr (toLowerStr x) := by
      rintro ⟨l, hl, -⟩
      exact Option.noConfusion hl
    aesop
  | some existing =>
    rw [mem_existingFold, hcore]
    have hsome : (∃ l, (some existing : Option (List String)) = some l ∧
        ∃ x ∈ l, t = trimStr (toLowerStr x)) ↔ ∃ x ∈ existing, t = trimStr (toLowerStr x) := by
      constructor
      · rintro ⟨l, hl, hx⟩
        rw [Option.some.inj hl]
        exact hx
      · intro hx
        exact ⟨existing, rfl, hx⟩
    rw [hsome]
    aesop

/-- C6 counterexample: on a product whose category is `"Shoes "`, the set
the claim describes contains the merely-lowercased category `"shoes "`, but
`normalizeTags` (which also trims) does not return it — the claimed set and
the returned set differ at this input. -/
theorem normalize_tags_claim_cex :
    normalizeTagsClaimedMem trailingSpaceProduct "shoes "
    ∧ "shoes " ∉ normalizeTags trailingSpaceProduct := by
  constructor
  · unfold normalizeTagsClaimedMem
    exact Or.inl ⟨by decide, by decide⟩
  · decide

/-- Witness for the amended C6: the characterization instantiated at the
counterexample product and the price-bucket tag. -/
theorem normalize_tags_exact_set_witness :
    "price:budget" ∈ normalizeTags trailingSpaceProduct ↔
      normalizeTagsSpecMem trailingSpaceProduct "price:budget" :=
  normalize_tags_exact_set trailingSpaceProduct "price:budget"
